import Mathlib

/-!
Verification of the transcript-download script of the Teen-Taal-AI repository
(src/backend/get_transcripts.py), as a shallow embedding in Lean 4.

Conventions of the embedding:
- Python character classes are modelled on their ASCII fragment: the regex
  class w becomes alphanumerics plus underscore, the class s and the default
  set of str.strip become the six ASCII whitespace characters.
- The external YouTube APIs are parameters of the embedded functions: the
  playlist API is a finite sequence of pages, the transcript API is a
  function from a video id and an optional language list to a result that
  either succeeds with a transcript or fails with an error message, where
  failure models a raised exception.
- File writes are modelled as the list of (path, content) pairs a call
  creates; json.dump with ensure_ascii False and indent 2 is an external
  serializer, modelled by the rawJson constructor applied to the entries.
- os.path.join is modelled with the separator "/".
-/

namespace GetTranscripts

/-- A transcript entry {text, start, duration}; timing metadata is opaque and
passed through unmodified, so it is modelled by integers. -/
structure TranscriptEntry where
  text : String
  start : Int
  duration : Int
deriving DecidableEq, Repr

/-- A video descriptor as built by get_playlist_videos:
{id, title, position} with a 1-based position. -/
structure VideoInfo where
  id : String
  title : String
  position : Nat
deriving DecidableEq, Repr

/-- ASCII fragment of Python whitespace: the regex class s and the default
character set of str.strip. -/
def pyIsSpace (c : Char) : Bool :=
  c = ' ' || c = '\t' || c = '\n' || c = '\r' || c = Char.ofNat 11 || c = Char.ofNat 12

/-- ASCII fragment of the Python regex class w: alphanumerics and underscore. -/
def pyIsWordChar (c : Char) : Bool :=
  c.isAlphanum || c = '_'

/-- Python str.strip on a character list: drop whitespace from both ends. -/
def pyStripChars (l : List Char) : List Char :=
  ((l.dropWhile pyIsSpace).reverse.dropWhile pyIsSpace).reverse

/-- Python str.strip on a string. -/
def pyStrip (s : String) : String :=
  String.mk (pyStripChars s.data)

/-- Scanner implementing one pass of the Python substitution
re.sub of the pattern open-bracket, one or more non-close-bracket
characters, close-bracket, by the empty string.  The second argument is
none in normal mode; it is some buf while scanning after an unmatched
open bracket, buf holding the characters read since then in reverse.
A close bracket with a nonempty buffer completes a match and the whole
span is dropped; a close bracket with an empty buffer means the two-character
text open-close which the pattern does not match. -/
def rbAux : List Char → Option (List Char) → List Char
  | [], none => []
  | [], some buf => '[' :: buf.reverse
  | c :: rest, none =>
    if c = '[' then rbAux rest (some []) else c :: rbAux rest none
  | c :: rest, some buf =>
    if c = ']' then
      if buf.isEmpty then '[' :: ']' :: rbAux rest none
      else rbAux rest none
    else rbAux rest (some (c :: buf))

/-- Removal of every bracketed marker, the effect of the re.sub call in
clean_transcript. -/
def removeBrackets (s : String) : String :=
  String.mk (rbAux s.data none)

/-- Companion scanner: decides whether the bracketed-marker pattern matches
anywhere, that is whether the substitution would drop something. -/
def hasMarkerAux : List Char → Option (List Char) → Bool
  | [], _ => false
  | c :: rest, none =>
    if c = '[' then hasMarkerAux rest (some []) else hasMarkerAux rest none
  | c :: rest, some buf =>
    if c = ']' then
      if buf.isEmpty then hasMarkerAux rest none
      else true
    else hasMarkerAux rest (some (c :: buf))

/-- A string contains a bracketed marker when the substitution pattern
matches somewhere in it. -/
def hasBracketMarker (s : String) : Bool :=
  hasMarkerAux s.data none

/-- Python truthiness of the transcript value flowing through the script:
None and the empty list are falsy, a nonempty list is truthy. -/
def transcriptTruthy : Option (List TranscriptEntry) → Bool
  | none => false
  | some l => !l.isEmpty

/-- clean_transcript: empty or absent transcript gives the empty string;
otherwise join the entry texts with newline, strip the whole result, then
remove bracketed markers. -/
def clean_transcript : Option (List TranscriptEntry) → String
  | none => ""
  | some l =>
    if l.isEmpty then ""
    else removeBrackets (pyStrip (String.intercalate "\n" (l.map TranscriptEntry.text)))

/-! Persistence Writer (save_transcript) -/

/-- Zero-padding of the 1-based position to at least three digits, the format
specifier 03d. -/
def pad3 (n : Nat) : String :=
  String.mk (List.replicate (3 - (toString n).length) '0') ++ toString n

/-- The title sanitization of save_transcript: re.sub of the complement of
word, whitespace and hyphen characters by the empty string, then strip, then
replacement of each space character by an underscore. -/
def safe_title (title : String) : String :=
  String.mk
    ((pyStripChars (title.data.filter
        (fun c => pyIsWordChar c || pyIsSpace c || c = '-'))).map
      (fun c => if c = ' ' then '_' else c))

/-- The common base filename of the two artifacts of one video. -/
def base_filename (v : VideoInfo) : String :=
  pad3 v.position ++ "_" ++ safe_title v.title ++ "_" ++ v.id

/-- Content of a written file: the raw artifact holds the JSON serialization
of the untouched entries, the clean artifact holds plain text. -/
inductive FileContent where
  | rawJson (entries : List TranscriptEntry)
  | cleanText (s : String)
deriving DecidableEq

/-- Does a written file hold a raw artifact. -/
def FileContent.isRawArtifact : FileContent → Bool
  | .rawJson _ => true
  | .cleanText _ => false

/-- Does a written file hold a clean artifact. -/
def FileContent.isCleanArtifact : FileContent → Bool
  | .rawJson _ => false
  | .cleanText _ => true

/-- save_transcript: for a truthy transcript, write the raw JSON artifact and
the clean text artifact under a common base filename and return True; for an
absent or empty transcript, write nothing and return False.  The returned
list holds the files the call creates, in creation order. -/
def save_transcript (v : VideoInfo) (t : Option (List TranscriptEntry))
    (raw_dir clean_dir : String) : Bool × List (String × FileContent) :=
  match t with
  | none => (false, [])
  | some l =>
    if l.isEmpty then (false, [])
    else
      (true,
        [(raw_dir ++ "/" ++ base_filename v ++ ".json", FileContent.rawJson l),
         (clean_dir ++ "/" ++ base_filename v ++ ".txt",
           FileContent.cleanText (clean_transcript (some l)))])

/-! Transcript Fetcher (get_transcript) -/

/-- The external transcript-retrieval API: a fetch takes a video id and an
optional language preference list (none models the call with no languages
argument) and either succeeds with a transcript or fails with the message of
the raised exception. -/
structure TranscriptApi where
  fetch : String → Option (List String) → Except String (List TranscriptEntry)

/-- get_transcript: try the language hi, then hi-IN, then any available
transcript; each failure is caught, and only after all three attempts have
failed return none and emit the diagnostic line naming the video id and the
terminal error.  The second component collects the emitted diagnostics. -/
def get_transcript (api : TranscriptApi) (video_id : String) :
    Option (List TranscriptEntry) × List String :=
  match api.fetch video_id (some ["hi"]) with
  | .ok t => (some t, [])
  | .error _ =>
    match api.fetch video_id (some ["hi-IN"]) with
    | .ok t => (some t, [])
    | .error _ =>
      match api.fetch video_id none with
      | .ok t => (some t, [])
      | .error e3 =>
        (none, ["Could not get transcript for video " ++ video_id ++ ": " ++ e3])

/-! Playlist Lister (get_playlist_videos) -/

/-- One item of a playlist page as returned by the listing API: the nested
videoId, the title, and the 0-based source position. -/
structure PlaylistItem where
  videoId : String
  title : String
  position : Nat
deriving DecidableEq, Repr

/-- The per-item mapping of the listing loop: the source position is
reassigned to be 1-based. -/
def itemToVideo (it : PlaylistItem) : VideoInfo :=
  ⟨it.videoId, it.title, it.position + 1⟩

/-- The pagination loop: each response page contributes its items in order,
and the loop ends when no continuation token remains, that is after the last
page of the input sequence. -/
def collectVideos : List (List PlaylistItem) → List VideoInfo
  | [] => []
  | page :: rest => page.map itemToVideo ++ collectVideos rest

/-- Comparison by position, the sort key of the final defensive sort. -/
def posLe (a b : VideoInfo) : Prop :=
  a.position ≤ b.position

instance : DecidableRel posLe := fun a b => Nat.decLe a.position b.position

instance : IsTotal VideoInfo posLe := ⟨fun a b => Nat.le_total a.position b.position⟩

instance : IsTrans VideoInfo posLe := ⟨fun _ _ _ h h' => Nat.le_trans h h'⟩

/-- get_playlist_videos on the page sequence the listing API returns: collect
all pages, then sort ascending by position with a stable sort. -/
def get_playlist_videos (pages : List (List PlaylistItem)) : List VideoInfo :=
  List.insertionSort posLe (collectVideos pages)

/-! Run Orchestrator (main) -/

/-- The directory constants of the script. -/
def TRANSCRIPTS_DIR : String := "backend" ++ "/" ++ "transcripts"

/-- The raw-output directory constant. -/
def RAW_DIR : String := TRANSCRIPTS_DIR ++ "/" ++ "raw"

/-- The clean-output directory constant. -/
def CLEAN_DIR : String := TRANSCRIPTS_DIR ++ "/" ++ "clean"

/-- The outcome of the try block of one loop iteration, as an oracle value:
ok r models get_transcript completing with r and the subsequent save running
to completion, error e models an exception raised while processing that
video and caught by the per-video handler. -/
abbrev PerVideoOutcome := Except String (Option (List TranscriptEntry))

/-- The counter increments of one loop iteration: (1,0) when the transcript
is truthy and save_transcript returns True, (0,1) when the transcript is
falsy, the save returns False, or an exception was caught. -/
def processVideo (v : VideoInfo) (outcome : PerVideoOutcome) : Nat × Nat :=
  match outcome with
  | .error _ => (0, 1)
  | .ok tr =>
    if transcriptTruthy tr then
      if (save_transcript v tr RAW_DIR CLEAN_DIR).1 then (1, 0) else (0, 1)
    else (0, 1)

/-- Did the iteration for one video count as successful. -/
def videoSucceeds (v : VideoInfo) (outcome : PerVideoOutcome) : Bool :=
  match outcome with
  | .error _ => false
  | .ok tr => transcriptTruthy tr && (save_transcript v tr RAW_DIR CLEAN_DIR).1

/-- One iteration of the per-video loop of main: add the increments of the
current video to the accumulated counters. -/
def mainStep (oracle : VideoInfo → PerVideoOutcome)
    (acc : Nat × Nat) (v : VideoInfo) : Nat × Nat :=
  (acc.1 + (processVideo v (oracle v)).1, acc.2 + (processVideo v (oracle v)).2)

/-- The per-video loop of main, accumulating the successful and failed
counters from (0, 0) over the videos in order. -/
def mainLoop (videos : List VideoInfo)
    (oracle : VideoInfo → PerVideoOutcome) : Nat × Nat :=
  videos.foldl (mainStep oracle) (0, 0)

/-! Definitions taken from the words of the specification, for comparison
with the embedded code. -/

/-- Modelled from the spec: an ordered list of attempt outcomes evaluated
until one succeeds, the reference form of the fallback chain. -/
def firstSuccess : List (Except String (List TranscriptEntry)) →
    Option (List TranscriptEntry)
  | [] => none
  | .ok t :: _ => some t
  | .error _ :: rest => firstSuccess rest

/-- The sanitization in the words of claim C5: retain only alphanumerics,
spaces and hyphens, strip everything else, then replace internal spaces with
underscores. -/
def claimSanitize (title : String) : String :=
  String.mk
    ((pyStripChars (title.data.filter
        (fun c => c.isAlphanum || c = ' ' || c = '-'))).map
      (fun c => if c = ' ' then '_' else c))

/-- The sanitization in the words of the amended claim C5: retain only
alphanumerics, underscores, whitespace and hyphens, strip everything else,
trim leading and trailing whitespace, then replace remaining space
characters with underscores. -/
def amendedSanitize (title : String) : String :=
  String.mk
    ((pyStripChars (title.data.filter
        (fun c => c.isAlphanum || c = '_' || pyIsSpace c || c = '-'))).map
      (fun c => if c = ' ' then '_' else c))

/-! Claim theorems -/

/-- Claim C4: clean_transcript maps an empty or absent transcript to the
empty string; a non-empty transcript maps to the entry texts joined with
newline, trimmed as a whole, with every bracketed substring removed; the
transcript with texts Hello, bracketed Music, world cleans to the string
Hello, newline, newline, world. -/
theorem clean_transcript_spec :
    clean_transcript none = "" ∧
    clean_transcript (some []) = "" ∧
    (∀ (e : TranscriptEntry) (l : List TranscriptEntry),
      clean_transcript (some (e :: l)) =
        removeBrackets (pyStrip
          (String.intercalate "\n" ((e :: l).map TranscriptEntry.text)))) ∧
    clean_transcript (some [⟨"Hello", 0, 1⟩, ⟨"[Music]", 1, 1⟩, ⟨"world", 2, 1⟩])
      = "Hello\n\nworld" :=
  ⟨rfl, rfl, fun _ _ => rfl, by decide⟩

/-- Claim C1: save_transcript is a no-op returning false with no files
created when the transcript is absent or empty; for a truthy transcript it
returns true and creates exactly one raw artifact and exactly one clean
artifact whose paths share the common base filename. -/
theorem save_transcript_artifacts (v : VideoInfo)
    (t : Option (List TranscriptEntry)) (rd cd : String) :
    if transcriptTruthy t then
      (save_transcript v t rd cd).1 = true ∧
      ((save_transcript v t rd cd).2.countP
        (fun f => f.2.isRawArtifact)) = 1 ∧
      ((save_transcript v t rd cd).2.countP
        (fun f => f.2.isCleanArtifact)) = 1 ∧
      (save_transcript v t rd cd).2.map Prod.fst =
        [rd ++ "/" ++ base_filename v ++ ".json",
         cd ++ "/" ++ base_filename v ++ ".txt"]
    else save_transcript v t rd cd = (false, []) := by
  match t with
  | none => simp [transcriptTruthy, save_transcript]
  | some [] => simp [transcriptTruthy, save_transcript]
  | some (e :: l) =>
    simp [transcriptTruthy, save_transcript, List.countP_cons,
      FileContent.isRawArtifact, FileContent.isCleanArtifact]

/-- Claim C2: get_transcript is total; it returns either a transcript with
no diagnostic, or none, and none arises exactly when all three fallback
attempts failed, in which case the emitted diagnostic line contains the
video id and the terminal error. -/
theorem get_transcript_total (api : TranscriptApi) (video_id : String) :
    (∃ t, get_transcript api video_id = (some t, [])) ∨
    (∃ e1 e2 e3,
      api.fetch video_id (some ["hi"]) = .error e1 ∧
      api.fetch video_id (some ["hi-IN"]) = .error e2 ∧
      api.fetch video_id none = .error e3 ∧
      get_transcript api video_id =
        (none,
          ["Could not get transcript for video " ++ video_id ++ ": " ++ e3])) := by
  cases h1 : api.fetch video_id (some ["hi"]) with
  | ok t => exact .inl ⟨t, by simp [get_transcript, h1]⟩
  | error e1 =>
    cases h2 : api.fetch video_id (some ["hi-IN"]) with
    | ok t => exact .inl ⟨t, by simp [get_transcript, h1, h2]⟩
    | error e2 =>
      cases h3 : api.fetch video_id none with
      | ok t => exact .inl ⟨t, by simp [get_transcript, h1, h2, h3]⟩
      | error e3 =>
        exact .inr ⟨e1, e2, e3, rfl, rfl, rfl,
          by simp [get_transcript, h1, h2, h3]⟩

/-- Claim C3: the fetcher evaluates exactly the three strategies hi, hi-IN,
unrestricted, in that order, and its result is the first success of that
ordered chain, so a later attempt matters only when every earlier attempt
failed. -/
theorem get_transcript_fallback_order (api : TranscriptApi) (video_id : String) :
    (get_transcript api video_id).1 =
      firstSuccess
        [api.fetch video_id (some ["hi"]),
         api.fetch video_id (some ["hi-IN"]),
         api.fetch video_id none] := by
  cases h1 : api.fetch video_id (some ["hi"]) with
  | ok t => simp [get_transcript, firstSuccess, h1]
  | error e1 =>
    cases h2 : api.fetch video_id (some ["hi-IN"]) with
    | ok t => simp [get_transcript, firstSuccess, h1, h2]
    | error e2 =>
      cases h3 : api.fetch video_id none with
      | ok t => simp [get_transcript, firstSuccess, h1, h2, h3]
      | error e3 => simp [get_transcript, firstSuccess, h1, h2, h3]

/-- Claim C5, counterexample: the code retains underscores, which are not
alphanumerics, spaces or hyphens; on the title a, underscore, b the code
keeps the underscore while the sanitization described by the claim strips
it. -/
theorem safe_title_keeps_underscore :
    safe_title "a_b" = "a_b" ∧ claimSanitize "a_b" = "ab" ∧
    safe_title "a_b" ≠ claimSanitize "a_b" := by decide

/-- Claim C5 as amended: the base filename is the 3-digit zero-padded
position, underscore, the title with only alphanumerics, underscores,
whitespace and hyphens retained, trimmed, with spaces replaced by
underscores, underscore, and the raw video id; the title Intro colon space
Part space 1 bang sanitizes to Intro_Part_1. -/
theorem base_filename_spec :
    (∀ v : VideoInfo,
      base_filename v =
        pad3 v.position ++ "_" ++ amendedSanitize v.title ++ "_" ++ v.id) ∧
    amendedSanitize "Intro: Part 1!" = "Intro_Part_1" ∧
    pad3 7 = "007" :=
  ⟨fun _ => rfl, by decide, by decide⟩

/-- Claim C10: the writer can return true while the clean artifact content
is empty or not whitespace-trimmed: a transcript whose only text is the
bracketed Music marker is saved with an empty clean artifact, and a leading
or trailing bracketed entry leaves the cleaned text beginning or ending
with a newline. -/
theorem clean_artifact_untrimmed :
    (save_transcript ⟨"vid", "Title", 1⟩ (some [⟨"[Music]", 0, 1⟩])
      RAW_DIR CLEAN_DIR).1 = true ∧
    (save_transcript ⟨"vid", "Title", 1⟩ (some [⟨"[Music]", 0, 1⟩])
      RAW_DIR CLEAN_DIR).2 =
      [(RAW_DIR ++ "/001_Title_vid.json",
        FileContent.rawJson [⟨"[Music]", 0, 1⟩]),
       (CLEAN_DIR ++ "/001_Title_vid.txt", FileContent.cleanText "")] ∧
    clean_transcript (some [⟨"[Music]", 0, 1⟩]) = "" ∧
    clean_transcript (some [⟨"[Music]", 0, 1⟩, ⟨"Hello", 1, 1⟩]) = "\nHello" ∧
    clean_transcript (some [⟨"Hello", 0, 1⟩, ⟨"[Music]", 1, 1⟩]) = "Hello\n" := by
  refine ⟨rfl, by decide, by decide, by decide, by decide⟩

/-! Helper lemmas about the orchestrator loop -/

/-- The increments of one iteration, as a single conditional on the success
predicate. -/
lemma processVideo_eq (v : VideoInfo) (o : PerVideoOutcome) :
    processVideo v o = if videoSucceeds v o then (1, 0) else (0, 1) := by
  rcases o with e | tr
  · rfl
  · unfold processVideo videoSucceeds
    cases h : transcriptTruthy tr
    · simp [h]
    · cases hs : (save_transcript v tr RAW_DIR CLEAN_DIR).1 <;> simp [h, hs]

/-- Folding the loop step from any accumulator shifts the result of the loop
started at zero. -/
lemma foldl_mainStep_shift (oracle : VideoInfo → PerVideoOutcome) :
    ∀ (videos : List VideoInfo) (a b : Nat),
      List.foldl (mainStep oracle) (a, b) videos =
        (a + (mainLoop videos oracle).1, b + (mainLoop videos oracle).2) := by
  intro videos
  induction videos with
  | nil => intro a b; simp [mainLoop]
  | cons v rest ih =>
    intro a b
    have h1 := ih (a + (processVideo v (oracle v)).1)
      (b + (processVideo v (oracle v)).2)
    have h2 := ih ((processVideo v (oracle v)).1) ((processVideo v (oracle v)).2)
    simp only [mainLoop, List.foldl_cons, mainStep, Nat.zero_add] at h1 h2 ⊢
    rw [h1, h2]
    simp [Nat.add_assoc]

/-- The loop on a cons: the increments of the head plus the loop on the
tail. -/
lemma mainLoop_cons (v : VideoInfo) (rest : List VideoInfo)
    (oracle : VideoInfo → PerVideoOutcome) :
    mainLoop (v :: rest) oracle =
      ((processVideo v (oracle v)).1 + (mainLoop rest oracle).1,
       (processVideo v (oracle v)).2 + (mainLoop rest oracle).2) := by
  unfold mainLoop
  rw [List.foldl_cons]
  have := foldl_mainStep_shift oracle rest ((mainStep oracle (0, 0) v).1)
    ((mainStep oracle (0, 0) v).2)
  simp only [mainStep, Nat.zero_add] at this ⊢
  rw [this]
  rfl

/-- The two counters of the loop count the successful and the unsuccessful
videos. -/
lemma mainLoop_counts (videos : List VideoInfo)
    (oracle : VideoInfo → PerVideoOutcome) :
    mainLoop videos oracle =
      (videos.countP (fun v => videoSucceeds v (oracle v)),
       videos.countP (fun v => !videoSucceeds v (oracle v))) := by
  induction videos with
  | nil => rfl
  | cons v rest ih =>
    rw [mainLoop_cons, ih, processVideo_eq]
    cases h : videoSucceeds v (oracle v) <;>
      simp [List.countP_cons, h, Nat.add_comm]

/-- A boolean predicate and its negation split the length of a list. -/
lemma countP_bool_split {α : Type} (p : α → Bool) :
    ∀ l : List α, l.countP p + l.countP (fun a => !p a) = l.length := by
  intro l
  induction l with
  | nil => rfl
  | cons a rest ih =>
    cases h : p a <;> simp [List.countP_cons, h] <;> omega

/-! Orchestrator claim theorems -/

/-- Claim C6: the successful counter counts exactly the videos whose fetch
completed with a truthy transcript and whose save returned true; the failed
counter counts exactly the rest, that is an exhausted fetch, a false save,
or a caught exception; and the loop on a cons always continues into the
tail, whatever the outcome of the head, so no single video aborts the
iteration. -/
theorem main_counts_spec :
    (∀ (videos : List VideoInfo) (oracle : VideoInfo → PerVideoOutcome),
      (mainLoop videos oracle).1 =
        videos.countP (fun v => videoSucceeds v (oracle v)) ∧
      (mainLoop videos oracle).2 =
        videos.countP (fun v => !videoSucceeds v (oracle v))) ∧
    (∀ (v : VideoInfo) (rest : List VideoInfo)
        (oracle : VideoInfo → PerVideoOutcome),
      mainLoop (v :: rest) oracle =
        ((processVideo v (oracle v)).1 + (mainLoop rest oracle).1,
         (processVideo v (oracle v)).2 + (mainLoop rest oracle).2)) ∧
    (∀ (v : VideoInfo) (e : String),
      processVideo v (Except.error e) = (0, 1)) ∧
    (∀ (v : VideoInfo) (tr : Option (List TranscriptEntry)),
      processVideo v (Except.ok tr) =
        if transcriptTruthy tr && (save_transcript v tr RAW_DIR CLEAN_DIR).1
        then (1, 0) else (0, 1)) := by
  refine ⟨?_, ?_, ?_, ?_⟩
  · intro videos oracle
    rw [mainLoop_counts]
    exact ⟨rfl, rfl⟩
  · intro v rest oracle
    exact mainLoop_cons v rest oracle
  · intro v e
    rfl
  · intro v tr
    exact processVideo_eq v (Except.ok tr)

/-- Claim C9: every iteration increments exactly one of the two counters by
exactly one, and consequently the two final counters sum to the number of
videos the lister returned. -/
theorem main_counter_invariant :
    (∀ (v : VideoInfo) (o : PerVideoOutcome),
      processVideo v o = (1, 0) ∨ processVideo v o = (0, 1)) ∧
    (∀ (videos : List VideoInfo) (oracle : VideoInfo → PerVideoOutcome),
      (mainLoop videos oracle).1 + (mainLoop videos oracle).2 =
        videos.length) := by
  constructor
  · intro v o
    rw [processVideo_eq]
    cases videoSucceeds v o <;> simp
  · intro videos oracle
    rw [mainLoop_counts]
    exact countP_bool_split _ videos

/-! Helper lemmas about the lister -/

/-- The concatenation of all pages the listing API returns. -/
def allItems : List (List PlaylistItem) → List PlaylistItem
  | [] => []
  | page :: rest => page ++ allItems rest

/-- The collection loop maps the item translation over the concatenated
pages. -/
lemma collectVideos_eq (pages : List (List PlaylistItem)) :
    collectVideos pages = (allItems pages).map itemToVideo := by
  induction pages with
  | nil => rfl
  | cons page rest ih => simp [collectVideos, allItems, ih]

/-- Claim C7: when the source positions across all pages enumerate 0 to N-1,
the returned descriptor list is a permutation of the items translated with
position plus one, it is sorted ascending by position, and its position
values are exactly 1 to N. -/
theorem get_playlist_videos_positions (pages : List (List PlaylistItem))
    (h : (allItems pages).map PlaylistItem.position =
      List.range (allItems pages).length) :
    List.Perm (get_playlist_videos pages) ((allItems pages).map itemToVideo) ∧
    List.Sorted posLe (get_playlist_videos pages) ∧
    (get_playlist_videos pages).map VideoInfo.position =
      List.range' 1 (allItems pages).length := by
  have hperm : List.Perm (get_playlist_videos pages) (collectVideos pages) :=
    List.perm_insertionSort posLe (collectVideos pages)
  have hperm2 : List.Perm (get_playlist_videos pages)
      ((allItems pages).map itemToVideo) := by
    rw [← collectVideos_eq]; exact hperm
  have hsorted : List.Sorted posLe (get_playlist_videos pages) :=
    List.sorted_insertionSort posLe (collectVideos pages)
  refine ⟨hperm2, hsorted, ?_⟩
  have hcomp : ((allItems pages).map itemToVideo).map VideoInfo.position =
      ((allItems pages).map PlaylistItem.position).map (fun n => n + 1) := by
    simp [List.map_map]
    exact fun a _ => rfl
  have hrange : ((allItems pages).map PlaylistItem.position).map (fun n => n + 1) =
      List.range' 1 (allItems pages).length := by
    rw [h, List.range'_eq_map_range]
    exact List.map_congr_left (fun a _ => Nat.add_comm a 1)
  have hmp : List.Perm ((get_playlist_videos pages).map VideoInfo.position)
      (List.range' 1 (allItems pages).length) := by
    rw [← hrange, ← hcomp]
    exact hperm2.map VideoInfo.position
  have hs1 : List.Sorted (· ≤ ·)
      ((get_playlist_videos pages).map VideoInfo.position) :=
    List.pairwise_map.mpr hsorted
  have hs2 : List.Sorted (· ≤ ·) (List.range' 1 (allItems pages).length) :=
    List.pairwise_le_range' 1 (allItems pages).length
  exact List.eq_of_perm_of_sorted hmp hs1 hs2

/-- Witness for C7 at a concrete two-page playlist whose source positions
are 0, 1, 2. -/
theorem get_playlist_videos_positions_witness :
    ((allItems [[⟨"a", "ta", 0⟩, ⟨"b", "tb", 1⟩], [⟨"c", "tc", 2⟩]]).map
        PlaylistItem.position =
      List.range
        (allItems [[⟨"a", "ta", 0⟩, ⟨"b", "tb", 1⟩], [⟨"c", "tc", 2⟩]]).length) ∧
    (List.Perm
        (get_playlist_videos [[⟨"a", "ta", 0⟩, ⟨"b", "tb", 1⟩], [⟨"c", "tc", 2⟩]])
        ((allItems [[⟨"a", "ta", 0⟩, ⟨"b", "tb", 1⟩], [⟨"c", "tc", 2⟩]]).map
          itemToVideo) ∧
      List.Sorted posLe
        (get_playlist_videos
          [[⟨"a", "ta", 0⟩, ⟨"b", "tb", 1⟩], [⟨"c", "tc", 2⟩]]) ∧
      (get_playlist_videos
          [[⟨"a", "ta", 0⟩, ⟨"b", "tb", 1⟩], [⟨"c", "tc", 2⟩]]).map
          VideoInfo.position =
        List.range' 1
          (allItems [[⟨"a", "ta", 0⟩, ⟨"b", "tb", 1⟩], [⟨"c", "tc", 2⟩]]).length) :=
  ⟨by decide, get_playlist_videos_positions _ (by decide)⟩

/-! Helper lemmas about the cleaner -/

/-- When the marker scanner reports no match, the substitution scanner
leaves its input unchanged, in both scanning modes. -/
lemma rbAux_no_marker : ∀ l : List Char,
    (hasMarkerAux l none = false → rbAux l none = l) ∧
    (∀ buf, hasMarkerAux l (some buf) = false →
      rbAux l (some buf) = '[' :: (buf.reverse ++ l)) := by
  intro l
  induction l with
  | nil =>
    refine ⟨fun _ => rfl, fun buf _ => ?_⟩
    simp [rbAux]
  | cons c rest ih =>
    refine ⟨?_, ?_⟩
    · intro h
      by_cases hc : c = '['
      · subst hc
        simp only [rbAux, hasMarkerAux, if_pos] at h ⊢
        simpa using ih.2 [] h
      · simp only [rbAux, hasMarkerAux, if_neg hc] at h ⊢
        rw [ih.1 h]
    · intro buf h
      by_cases hc : c = ']'
      · subst hc
        cases buf with
        | nil =>
          simp only [rbAux, hasMarkerAux, if_pos, List.isEmpty_nil] at h ⊢
          simp [ih.1 h]
        | cons d ds =>
          exfalso
          simp [hasMarkerAux] at h
      · simp only [rbAux, hasMarkerAux, if_neg hc] at h ⊢
        rw [ih.2 (c :: buf) h]
        simp

/-- A character list with a non-space head and a non-space last character is
unchanged by the strip. -/
lemma pyStripChars_eq_self (l : List Char)
    (h1 : l.head?.all (fun c => !pyIsSpace c) = true)
    (h2 : l.getLast?.all (fun c => !pyIsSpace c) = true) :
    pyStripChars l = l := by
  unfold pyStripChars
  have d1 : l.dropWhile pyIsSpace = l := by
    cases l with
    | nil => rfl
    | cons c cs =>
      simp only [List.head?_cons, Option.all_some, Bool.not_eq_true'] at h1
      exact List.dropWhile_cons_of_neg (by simp [h1])
  rw [d1]
  have d2 : l.reverse.dropWhile pyIsSpace = l.reverse := by
    cases hr : l.reverse with
    | nil => rfl
    | cons c cs =>
      have hc : l.getLast? = some c := by
        rw [← List.head?_reverse, hr]
        rfl
      rw [hc] at h2
      simp only [Option.all_some, Bool.not_eq_true'] at h2
      exact List.dropWhile_cons_of_neg (by simp [h2])
  rw [d2, List.reverse_reverse]

/-- Claim C8: the cleaner is idempotent on already-clean input; a transcript
whose joined text has no leading or trailing whitespace and contains no
bracketed marker cleans to that joined text unchanged. -/
theorem clean_transcript_idempotent (t : List TranscriptEntry) (s : String)
    (hjoin : String.intercalate "\n" (t.map TranscriptEntry.text) = s)
    (hhead : s.data.head?.all (fun c => !pyIsSpace c) = true)
    (hlast : s.data.getLast?.all (fun c => !pyIsSpace c) = true)
    (hmark : hasBracketMarker s = false) :
    clean_transcript (some t) = s := by
  cases t with
  | nil =>
    rw [← hjoin]
    rfl
  | cons e l =>
    have h1 : clean_transcript (some (e :: l)) = removeBrackets (pyStrip s) := by
      rw [← hjoin]
      rfl
    rw [h1]
    have hstrip : pyStrip s = s := by
      unfold pyStrip
      rw [pyStripChars_eq_self s.data hhead hlast]
    rw [hstrip]
    unfold removeBrackets
    rw [(rbAux_no_marker s.data).1 hmark]

/-- Witness for C8 at the concrete clean string Hello space world. -/
theorem clean_transcript_idempotent_witness :
    String.intercalate "\n"
        (([⟨"Hello world", 0, 1⟩] : List TranscriptEntry).map
          TranscriptEntry.text) = "Hello world" ∧
    "Hello world".data.head?.all (fun c => !pyIsSpace c) = true ∧
    "Hello world".data.getLast?.all (fun c => !pyIsSpace c) = true ∧
    hasBracketMarker "Hello world" = false ∧
    clean_transcript (some [⟨"Hello world", 0, 1⟩]) = "Hello world" :=
  ⟨by decide, by decide, by decide, by decide,
    clean_transcript_idempotent [⟨"Hello world", 0, 1⟩] "Hello world"
      (by decide) (by decide) (by decide) (by decide)⟩

end GetTranscripts
